import Mathlib

/-!
Shallow embedding of `src/pretix/base/services/quotas.py`.

The repository core is the function `calculate_availabilities` (the quota
availability engine) and the periodic task `refresh_quota_caches` (the cache
refresh scheduler).  The persistent data store and its query execution are
out of scope in the specification, so the grouped query results
(`op_lookup`, `v_lookup`, `w_lookup`, `cart_lookup`) and the membership
relation rows (`q_items`, `q_vars`) are inputs of the embedded function,
shaped exactly like the row dictionaries the source iterates over.

Python-specific behaviour is modelled explicitly:
  - `None` stored in the `size_left` counter is `Option.none`; subtracting
    from it raises a `TypeError`, modelled by `Except.error`.
  - dictionary access with a key that is absent from the projected row
    raises a `KeyError`, modelled by `Except.error` (the voucher pass
    accesses `line["itemvariation_id"]` although the projection only
    contains `variation_id`).
  - Python truthiness of an id value (`None` and `0` are falsy).
  - `sorted(..., reverse=True)` on the status string key is a stable
    descending sort (embedded as a stable insertion sort, which computes
    the same list); Python string comparison is lexicographic on code
    points (`strLtB`).
-/

/-- Availability statuses of the source (`Quota.AVAILABILITY_*`). -/
inductive Availability where
  | GONE
  | ORDERED
  | RESERVED
  | OK
deriving DecidableEq, Repr

/-- A quota row: identity, event, optional sub-event scope, optional size
(`none` is the unlimited sentinel) and the closed flag. -/
structure Quota where
  pk : Nat
  event_id : Nat
  subevent_id : Option Nat
  size : Option Int
  closed : Bool
deriving DecidableEq, Repr

/-- A row of the quota/item membership relation (`Quota.items.through`). -/
structure QItemRow where
  quota_id : Nat
  item_id : Nat
deriving DecidableEq, Repr

/-- A row of the quota/variation membership relation (`Quota.variations.through`). -/
structure QVarRow where
  quota_id : Nat
  itemvariation_id : Nat
deriving DecidableEq, Repr

/-- A grouped row of `op_lookup`: order status, item, sub-event, optional
variation and the aggregated count `c`. -/
structure OrderLine where
  order_status : String
  item_id : Nat
  subevent_id : Option Nat
  variation_id : Option Nat
  c : Int
deriving DecidableEq, Repr

/-- A grouped row of `v_lookup`: the projection contains exactly the keys
`subevent_id`, `item_id`, `quota_id`, `variation_id` plus the aggregate
`free`. -/
structure VoucherLine where
  subevent_id : Option Nat
  item_id : Option Nat
  quota_id : Option Nat
  variation_id : Option Nat
  free : Int
deriving DecidableEq, Repr

/-- A grouped row of `w_lookup` or `cart_lookup`: item, sub-event, optional
variation and the aggregated count `c`. -/
structure CountLine where
  item_id : Nat
  subevent_id : Option Nat
  variation_id : Option Nat
  c : Int
deriving DecidableEq, Repr

/-- `Order.STATUS_PAID`. -/
def STATUS_PAID : String := "p"

/-- `Order.STATUS_PENDING`. -/
def STATUS_PENDING : String := "n"

/-- Python truthiness of an optional id value: `None` and `0` are falsy. -/
def pyTruthy : Option Nat → Bool
  | none => false
  | some v => v != 0

/-- Python `x -= c` where `x` may hold `None`: raises a `TypeError` on
`None`, otherwise subtracts. -/
def pySub : Option Int → Int → Except String Int
  | some n, c => .ok (n - c)
  | none, _ => .error "TypeError: NoneType minus int"

/-- Dictionary access on a `v_lookup` row: only the four projected keys
exist, every other key raises a `KeyError`. -/
def VoucherLine.dget (l : VoucherLine) (k : String) : Except String (Option Nat) :=
  if k == "subevent_id" then .ok l.subevent_id
  else if k == "item_id" then .ok l.item_id
  else if k == "quota_id" then .ok l.quota_id
  else if k == "variation_id" then .ok l.variation_id
  else .error ("KeyError: " ++ k)

/-- Mutable state of one engine invocation: the `result` dictionary, the
`size_left` counter (entries may hold Python `None`) and the
`analyze_result` nested counters. -/
structure EngineState where
  result : Quota → Option (Availability × Option Int)
  size_left : Quota → Option Int
  analyze_result : Quota → String → Int

/-- State at the top of `calculate_availabilities`: empty result dictionary,
counter entries defaulting to the integer 0, empty analysis counters. -/
def initState : EngineState :=
  ⟨fun _ => none, fun _ => some 0, fun _ _ => 0⟩

/-- One iteration of the early-out seeding loop (source lines 27-33). -/
def seedStep (ignore_closed analyze : Bool) (st : EngineState) (q : Quota) : EngineState :=
  if q.closed && !ignore_closed && !analyze then
    { st with result := fun x => if x = q then some (Availability.ORDERED, some 0) else st.result x }
  else if q.size.isNone && !analyze then
    { st with result := fun x => if x = q then some (Availability.OK, none) else st.result x }
  else
    { st with size_left := fun x => if x = q then q.size else st.size_left x }

/-- The seeding loop over all quotas. -/
def seedPass (quotas : List Quota) (ignore_closed analyze : Bool) : EngineState :=
  quotas.foldl (seedStep ignore_closed analyze) initState

/-- `not any(q not in result for q in quotas)`. -/
def allResolved (quotas : List Quota) (st : EngineState) : Bool :=
  quotas.all (fun q => (st.result q).isSome)

/-- `ids_to_quotas[pk]` for the rows of a membership relation: the dict is a
comprehension over all quotas, so a duplicated primary key keeps the last
quota. -/
def idsToQuotas (quotas : List Quota) (pk : Nat) : Option Quota :=
  quotas.reverse.find? (fun q => q.pk == pk)

/-- `item_to_quota`: the membership rows are restricted to quotas unresolved
after seeding (source line 45) and accumulated in row order (lines 47-49). -/
def item_to_quota (quotas : List Quota) (st0 : EngineState) (q_items : List QItemRow) :
    Nat → List Quota :=
  fun i =>
    ((q_items.filter (fun m =>
        quotas.any (fun q => q.pk == m.quota_id && (st0.result q).isNone) && m.item_id == i)).filterMap
      (fun m => idsToQuotas quotas m.quota_id))

/-- `var_to_quota`, built like `item_to_quota` from the variation rows. -/
def var_to_quota (quotas : List Quota) (st0 : EngineState) (q_vars : List QVarRow) :
    Nat → List Quota :=
  fun i =>
    ((q_vars.filter (fun m =>
        quotas.any (fun q => q.pk == m.quota_id && (st0.result q).isNone) && m.itemvariation_id == i)).filterMap
      (fun m => idsToQuotas quotas m.quota_id))

/-- The shared body of the four counting loops (source lines 76-85, 121-127,
148-154, 179-185): for one quota `q` and one grouped line with sub-event
`sub` and count `c`, if the sub-events are equal and `q` is unresolved,
subtract `c` from the counter; in analyze mode bump the counter named `key`,
otherwise resolve `q` to `(cross, 0)` when the counter dropped to `<= 0`. -/
def consume (analyze : Bool) (key : String) (cross : Availability)
    (sub : Option Nat) (c : Int) (st : EngineState) (q : Quota) : Except String EngineState :=
  if q.subevent_id == sub && (st.result q).isNone then
    match pySub (st.size_left q) c with
    | .error e => .error e
    | .ok n =>
      let st1 : EngineState :=
        { st with size_left := fun x => if x = q then some n else st.size_left x }
      if analyze then
        .ok { st1 with analyze_result := fun x k =>
                if x = q && k == key then st1.analyze_result x k + c else st1.analyze_result x k }
      else if n ≤ 0 then
        .ok { st1 with result := fun x => if x = q then some (cross, some 0) else st1.result x }
      else
        .ok st1
  else
    .ok st

/-- Python string comparison (lexicographic on code points), on the
character data. -/
def strLtB : List Char → List Char → Bool
  | [], [] => false
  | [], _ :: _ => true
  | _ :: _, [] => false
  | a :: as, b :: bs =>
    if a.toNat < b.toNat then true
    else if b.toNat < a.toNat then false
    else strLtB as bs

/-- The key comparison of `sorted(op_lookup, key=..., reverse=True)`: a
stable descending sort places `a` before `b` whenever the key of `a` is not
below the key of `b`. -/
def orderDescLE (a b : OrderLine) : Bool :=
  !(strLtB a.order_status.data b.order_status.data)

/-- The descending key order as a decidable relation. -/
def orderDescRel (a b : OrderLine) : Prop := orderDescLE a b = true

instance orderDescRel.decRel : DecidableRel orderDescRel :=
  fun a b => inferInstanceAs (Decidable (orderDescLE a b = true))

/-- The order lines as the loop of source line 71 sees them: the query is
restricted to paid and pending orders, and the rows are sorted by status
string, descending and stable (a stable insertion sort computes the same
list as any stable sort). -/
def sorted_op_lookup (lines : List OrderLine) : List OrderLine :=
  (lines.filter (fun l => l.order_status == STATUS_PAID || l.order_status == STATUS_PENDING)).insertionSort
    orderDescRel

/-- Body of the orders loop for one quota: the counter key is
`"order_" + status` and crossing resolves to GONE for paid, ORDERED
otherwise (source lines 79-85). -/
def ordersBody (analyze : Bool) (line : OrderLine) (st : EngineState) (q : Quota) :
    Except String EngineState :=
  consume analyze ("order_" ++ line.order_status)
    (if line.order_status == STATUS_PAID then Availability.GONE else Availability.ORDERED)
    line.subevent_id line.c st q

/-- Quota lookup for an order/waiting-list/cart line (source lines 72-75):
variation index if the variation id is truthy, item index otherwise. -/
def quotasForLine (itq vtq : Nat → List Quota) (variation_id : Option Nat) (item_id : Nat) :
    List Quota :=
  if pyTruthy variation_id then vtq (variation_id.getD 0) else itq item_id

/-- Processing of one order line: inner loop over the owning quotas. -/
def ordersLoop (analyze : Bool) (itq vtq : Nat → List Quota) (st : EngineState)
    (line : OrderLine) : Except String EngineState :=
  (quotasForLine itq vtq line.variation_id line.item_id).foldlM (ordersBody analyze line) st

/-- The orders pass (source lines 71-85). -/
def ordersPass (analyze : Bool) (itq vtq : Nat → List Quota) (lines : List OrderLine)
    (st : EngineState) : Except String EngineState :=
  (sorted_op_lookup lines).foldlM (ordersLoop analyze itq vtq) st

/-- Quota lookup for a voucher line (source lines 115-120).  The first
branch accesses the key `itemvariation_id`, which the projection of
`v_lookup` does not contain, so a truthy `variation_id` raises a
`KeyError`; the quota-scoped branch accesses `ids_to_quotas` with the raw
key and raises a `KeyError` when the key is absent. -/
def voucherQs (quotas : List Quota) (itq vtq : Nat → List Quota) (line : VoucherLine) :
    Except String (List Quota) := do
  let v ← line.dget "variation_id"
  if pyTruthy v then do
    let iv ← line.dget "itemvariation_id"
    pure (vtq (iv.getD 0))
  else do
    let it ← line.dget "item_id"
    if pyTruthy it then
      pure (itq (it.getD 0))
    else do
      let qk ← line.dget "quota_id"
      match qk with
      | none => Except.error "KeyError: None"
      | some pk =>
        match idsToQuotas quotas pk with
        | some q => pure [q]
        | none => Except.error "KeyError: quota id"

/-- Body of the vouchers loop for one quota: counter key `"vouchers"`,
crossing resolves to ORDERED (source lines 121-127). -/
def vouchersBody (analyze : Bool) (line : VoucherLine) (st : EngineState) (q : Quota) :
    Except String EngineState :=
  consume analyze "vouchers" Availability.ORDERED line.subevent_id line.free st q

/-- Processing of one voucher line. -/
def vouchersLoop (analyze : Bool) (quotas : List Quota) (itq vtq : Nat → List Quota)
    (st : EngineState) (line : VoucherLine) : Except String EngineState := do
  let qs ← voucherQs quotas itq vtq line
  qs.foldlM (vouchersBody analyze line) st

/-- The vouchers pass (source lines 114-127). -/
def vouchersPass (analyze : Bool) (quotas : List Quota) (itq vtq : Nat → List Quota)
    (lines : List VoucherLine) (st : EngineState) : Except String EngineState :=
  lines.foldlM (vouchersLoop analyze quotas itq vtq) st

/-- Body of the waiting-list loop for one quota: counter key
`"waitinglist"`, crossing resolves to ORDERED (source lines 148-154). -/
def waitingBody (analyze : Bool) (line : CountLine) (st : EngineState) (q : Quota) :
    Except String EngineState :=
  consume analyze "waitinglist" Availability.ORDERED line.subevent_id line.c st q

/-- Processing of one waiting-list line. -/
def waitingLoop (analyze : Bool) (itq vtq : Nat → List Quota) (st : EngineState)
    (line : CountLine) : Except String EngineState :=
  (quotasForLine itq vtq line.variation_id line.item_id).foldlM (waitingBody analyze line) st

/-- The waiting-list pass (source lines 143-154). -/
def waitingPass (analyze : Bool) (itq vtq : Nat → List Quota) (lines : List CountLine)
    (st : EngineState) : Except String EngineState :=
  lines.foldlM (waitingLoop analyze itq vtq) st

/-- Body of the cart loop for one quota.  The analysis counter key is
`"waitinglist"` — exactly as in source line 183, which accumulates the cart
holds under the waiting-list counter name; crossing resolves to RESERVED. -/
def cartBody (analyze : Bool) (line : CountLine) (st : EngineState) (q : Quota) :
    Except String EngineState :=
  consume analyze "waitinglist" Availability.RESERVED line.subevent_id line.c st q

/-- Processing of one cart line. -/
def cartLoop (analyze : Bool) (itq vtq : Nat → List Quota) (st : EngineState)
    (line : CountLine) : Except String EngineState :=
  (quotasForLine itq vtq line.variation_id line.item_id).foldlM (cartBody analyze line) st

/-- The cart pass (source lines 174-185). -/
def cartPass (analyze : Bool) (itq vtq : Nat → List Quota) (lines : List CountLine)
    (st : EngineState) : Except String EngineState :=
  lines.foldlM (cartLoop analyze itq vtq) st

/-- The final loop (source lines 190-192): a still unresolved quota enters
the result as OK exactly when its counter is strictly positive; comparing a
stored `None` with 0 would raise a `TypeError` (the membership check
short-circuits first, as in Python). -/
def finalize (quotas : List Quota) (st : EngineState) :
    Except String (Quota → Option (Availability × Option Int)) :=
  quotas.foldlM (fun r q =>
    if (r q).isNone then
      match st.size_left q with
      | none => Except.error "TypeError: NoneType greater than int"
      | some n =>
        if n > 0 then .ok (fun x => if x = q then some (Availability.OK, some n) else r x)
        else .ok r
    else .ok r) st.result

/-- The two return shapes of `calculate_availabilities`. -/
inductive CAOutput where
  | avail (m : Quota → Option (Availability × Option Int))
  | analysis (a : Quota → String → Int)

/-- The availability engine.  Inputs: the quota set, the membership rows and
the four grouped query results; flags as in the source.  Early-outs after
seeding and after the orders, vouchers and waiting-list passes, the last one
sitting inside the waiting-list block exactly as at source lines 156-157. -/
def calculate_availabilities (quotas : List Quota) (q_items : List QItemRow)
    (q_vars : List QVarRow) (op_lookup : List OrderLine) (v_lookup : List VoucherLine)
    (w_lookup : List CountLine) (cart_lookup : List CountLine)
    (count_waitinglist ignore_closed analyze : Bool) : Except String CAOutput :=
  let st0 := seedPass quotas ignore_closed analyze
  if !analyze && allResolved quotas st0 then .ok (.avail st0.result)
  else
    let itq := item_to_quota quotas st0 q_items
    let vtq := var_to_quota quotas st0 q_vars
    do
    let st1 ← ordersPass analyze itq vtq op_lookup st0
    if !analyze && allResolved quotas st1 then return .avail st1.result
    let st2 ← vouchersPass analyze quotas itq vtq v_lookup st1
    if !analyze && allResolved quotas st2 then return .avail st2.result
    let st3 ← if count_waitinglist then waitingPass analyze itq vtq w_lookup st2 else pure st2
    if count_waitinglist && (!analyze && allResolved quotas st3) then return .avail st3.result
    let st4 ← cartPass analyze itq vtq cart_lookup st3
    if analyze then return .analysis st4.analyze_result
    let m ← finalize quotas st4
    return .avail m

/-- A sub-event row as the scheduler filter sees it. -/
structure SchedSubEvent where
  date_from : Int
  date_to : Option Int
deriving DecidableEq, Repr

/-- A quota row as the scheduler sees it: cached availability timestamp and
optional sub-event. -/
structure SchedQuota where
  pk : Nat
  cached_availability_time : Option Int
  subevent : Option SchedSubEvent
deriving DecidableEq, Repr

/-- Staleness filter of the scheduler (source lines 216-219): cache missing,
or older than the latest activity of the event, or older than the fixed
2-hour ceiling. -/
def quotaStale (now_t last_activity : Int) (q : SchedQuota) : Bool :=
  match q.cached_availability_time with
  | none => true
  | some t => decide (t < last_activity) || decide (t < now_t - 2 * 3600)

/-- Sub-event recency filter of the scheduler (source lines 220-224):
unscoped, or end date present and within the last 14 days or later, or
start date within the last 14 days or later. -/
def subeventCurrent (now_t : Int) (q : SchedQuota) : Bool :=
  match q.subevent with
  | none => true
  | some se =>
    (match se.date_to with
     | some d => decide (now_t - 14 * 86400 ≤ d)
     | none => false)
    || decide (now_t - 14 * 86400 ≤ se.date_from)

/-- The full selection predicate applied by one sweep to a quota of an
active event. -/
def sweepSelects (now_t last_activity : Int) (q : SchedQuota) : Bool :=
  quotaStale now_t last_activity q && subeventCurrent now_t q

/-- One row of the `active` aggregation: event id and latest activity
timestamp within the last 7 days. -/
structure ActiveRow where
  event : Nat
  last_activity : Int
deriving DecidableEq, Repr

/-- An event row with its quotas, as fetched during the sweep. -/
structure SchedEvent where
  pk : Nat
  quotas : List SchedQuota
deriving DecidableEq, Repr

/-- The scheduler sweep `refresh_quota_caches` (source lines 204-226).  The
event lookup may find nothing (the event vanished between selection and
processing): that row is skipped with `continue`.  The availability call on
each selected quota is external and may fail; the source has no handler
around it, so a failure propagates out of the sweep.  The returned list
records the quotas processed, in order. -/
def refresh_quota_caches (now_t : Int) (active : List ActiveRow)
    (events_db : Nat → Option SchedEvent) (availability : SchedQuota → Except String Unit) :
    Except String (List Nat) :=
  active.foldlM (fun processed a =>
    match events_db a.event with
    | none => .ok processed
    | some e =>
      (e.quotas.filter (sweepSelects now_t a.last_activity)).foldlM
        (fun acc q => do
          let _ ← availability q
          pure (acc ++ [q.pk])) processed) []

/-! ## Helper definitions for observing outputs -/

/-- Projection of a successful decision-mode output. -/
def availOf : Except String CAOutput → Quota → Option (Availability × Option Int)
  | .ok (.avail m), q => m q
  | _, _ => none

/-- Projection of a successful analysis-mode output. -/
def analysisOf : Except String CAOutput → Quota → String → Int
  | .ok (.analysis a), q, k => a q k
  | _, _, _ => 0

/-- Recognizer of a successful decision-mode output. -/
def isAvailOk : Except String CAOutput → Bool
  | .ok (.avail _) => true
  | _ => false

/-! ## Generic fold preservation -/

/-- A property preserved by every successful step of a monadic fold over
`Except` is preserved by the whole fold. -/
theorem foldlM_pres {α β : Type} (step : β → α → Except String β) (P : β → Prop)
    (hstep : ∀ s x s', P s → step s x = .ok s' → P s') :
    ∀ (l : List α) (s s' : β), P s → l.foldlM step s = .ok s' → P s' := by
  intro l
  induction l with
  | nil =>
    intro s s' hP h
    simp only [List.foldlM_nil] at h
    cases h
    exact hP
  | cons x xs ih =>
    intro s s' hP h
    rw [List.foldlM_cons] at h
    cases hx : step s x with
    | error e => rw [hx] at h; simp [Bind.bind, Except.bind] at h
    | ok s1 =>
      rw [hx] at h
      simp only [Bind.bind, Except.bind] at h
      exact ih s1 s' (hstep s x s1 hP hx) h

/-! ## Seed pass characterization -/

/-- The value (if any) that the seeding loop assigns to a quota in the
result dictionary. -/
def seedRes (ignore_closed analyze : Bool) (q : Quota) : Option (Availability × Option Int) :=
  if q.closed && !ignore_closed && !analyze then some (Availability.ORDERED, some 0)
  else if q.size.isNone && !analyze then some (Availability.OK, none)
  else none

theorem seedStep_result (i a : Bool) (s : EngineState) (x q : Quota) :
    (seedStep i a s x).result q =
      if q = x ∧ (seedRes i a x).isSome then seedRes i a x else s.result q := by
  unfold seedStep seedRes
  by_cases h1 : (x.closed && !i && !a) = true
  · simp only [h1, if_true]
    by_cases hq : q = x <;> simp [hq]
  · simp only [h1]
    by_cases h2 : (x.size.isNone && !a) = true
    · simp only [h2, if_true, Bool.false_eq_true, if_false]
      by_cases hq : q = x <;> simp [hq]
    · simp only [h2, Bool.false_eq_true, if_false]
      by_cases hq : q = x <;> simp [hq]

theorem seedStep_size (i a : Bool) (s : EngineState) (x q : Quota) :
    (seedStep i a s x).size_left q =
      if q = x ∧ seedRes i a x = none then x.size else s.size_left q := by
  unfold seedStep seedRes
  by_cases h1 : (x.closed && !i && !a) = true
  · simp only [h1, if_true]
    by_cases hq : q = x <;> simp [hq]
  · simp only [h1]
    by_cases h2 : (x.size.isNone && !a) = true
    · simp only [h2, if_true, Bool.false_eq_true, if_false]
      by_cases hq : q = x <;> simp [hq]
    · simp only [h2, Bool.false_eq_true, if_false]
      by_cases hq : q = x <;> simp [hq]

theorem seed_result_aux (i a : Bool) :
    ∀ (l : List Quota) (s : EngineState) (q : Quota),
      ((l.foldl (seedStep i a) s).result q) =
        if q ∈ l ∧ (seedRes i a q).isSome then seedRes i a q else s.result q := by
  intro l
  induction l with
  | nil => intro s q; simp
  | cons x xs ih =>
    intro s q
    rw [List.foldl_cons, ih]
    by_cases hm : q ∈ xs ∧ (seedRes i a q).isSome
    · simp only [hm, if_true]
      have : q ∈ x :: xs ∧ (seedRes i a q).isSome := ⟨List.mem_cons_of_mem x hm.1, hm.2⟩
      simp [this]
    · simp only [hm, if_false]
      rw [seedStep_result]
      by_cases hx : q = x
      · subst hx
        by_cases hs : (seedRes i a q).isSome
        · have : q ∈ q :: xs ∧ (seedRes i a q).isSome := ⟨List.mem_cons_self q xs, hs⟩
          simp [hs, this]
        · have : ¬(q ∈ q :: xs ∧ (seedRes i a q).isSome) := fun h => hs h.2
          simp [hs, this]
      · have hxq : ¬(q = x ∧ (seedRes i a x).isSome) := fun h => hx h.1
        simp only [hxq, if_false]
        have : (q ∈ x :: xs ∧ (seedRes i a q).isSome) ↔ (q ∈ xs ∧ (seedRes i a q).isSome) := by
          constructor
          · rintro ⟨h1, h2⟩
            rcases List.mem_cons.mp h1 with h | h
            · exact absurd h hx
            · exact ⟨h, h2⟩
          · rintro ⟨h1, h2⟩
            exact ⟨List.mem_cons_of_mem x h1, h2⟩
        rw [if_neg (fun h => hm (this.mp h))]

theorem seed_size_aux (i a : Bool) :
    ∀ (l : List Quota) (s : EngineState) (q : Quota),
      ((l.foldl (seedStep i a) s).size_left q) =
        if q ∈ l ∧ seedRes i a q = none then q.size else s.size_left q := by
  intro l
  induction l with
  | nil => intro s q; simp
  | cons x xs ih =>
    intro s q
    rw [List.foldl_cons, ih]
    by_cases hm : q ∈ xs ∧ seedRes i a q = none
    · simp only [hm, if_true]
      have : q ∈ x :: xs ∧ seedRes i a q = none := ⟨List.mem_cons_of_mem x hm.1, hm.2⟩
      simp [this]
    · simp only [hm, if_false]
      rw [seedStep_size]
      by_cases hx : q = x
      · subst hx
        by_cases hs : seedRes i a q = none
        · have : q ∈ q :: xs ∧ seedRes i a q = none := ⟨List.mem_cons_self q xs, hs⟩
          simp [hs, this]
        · have : ¬(q = q ∧ seedRes i a q = none) := fun h => hs h.2
          have h2 : ¬(q ∈ q :: xs ∧ seedRes i a q = none) := fun h => hs h.2
          simp [this, h2]
      · have hxq : ¬(q = x ∧ seedRes i a x = none) := fun h => hx h.1
        simp only [hxq, if_false]
        have : (q ∈ x :: xs ∧ seedRes i a q = none) ↔ (q ∈ xs ∧ seedRes i a q = none) := by
          constructor
          · rintro ⟨h1, h2⟩
            rcases List.mem_cons.mp h1 with h | h
            · exact absurd h hx
            · exact ⟨h, h2⟩
          · rintro ⟨h1, h2⟩
            exact ⟨List.mem_cons_of_mem x h1, h2⟩
        rw [if_neg (fun h => hm (this.mp h))]

theorem seed_result (l : List Quota) (i a : Bool) (q : Quota) :
    (seedPass l i a).result q = if q ∈ l then seedRes i a q else none := by
  unfold seedPass
  rw [seed_result_aux]
  by_cases hm : q ∈ l
  · by_cases hs : (seedRes i a q).isSome
    · simp [hm, hs]
    · have : seedRes i a q = none := Option.not_isSome_iff_eq_none.mp hs
      simp [hm, hs, this, initState]
  · simp [hm, initState]

theorem seed_size (l : List Quota) (i a : Bool) (q : Quota) :
    (seedPass l i a).size_left q =
      if q ∈ l ∧ seedRes i a q = none then q.size else some 0 := by
  unfold seedPass
  rw [seed_size_aux]
  by_cases hm : q ∈ l ∧ seedRes i a q = none <;> simp [hm, initState]

/-! ## Result preservation through the counting passes -/

/-- Shape of a predicate on the result dictionary that survives adding a
crossing entry `(a, 0)` at a previously unresolved quota. -/
def AddStable (Q : (Quota → Option (Availability × Option Int)) → Prop) : Prop :=
  ∀ (res : Quota → Option (Availability × Option Int)) (x : Quota) (a : Availability),
    a ≠ Availability.OK → res x = none → Q res →
    Q (fun y => if y = x then some (a, some 0) else res y)

theorem consume_result_pres (analyze : Bool) (key : String) (cross : Availability)
    (hcross : cross ≠ Availability.OK)
    (sub : Option Nat) (c : Int) (st st' : EngineState) (q : Quota)
    (Q : (Quota → Option (Availability × Option Int)) → Prop) (hadd : AddStable Q)
    (hQ : Q st.result) (h : consume analyze key cross sub c st q = .ok st') : Q st'.result := by
  unfold consume at h
  by_cases hg : (q.subevent_id == sub && (st.result q).isNone) = true
  · rw [if_pos hg] at h
    cases hs : pySub (st.size_left q) c with
    | error e => rw [hs] at h; cases h
    | ok n =>
      rw [hs] at h
      by_cases ha : analyze = true
      · simp only [ha, if_true] at h
        cases h
        exact hQ
      · simp only [ha, Bool.false_eq_true, if_false] at h
        by_cases hn : n ≤ 0
        · rw [if_pos hn] at h
          cases h
          have hnone : st.result q = none :=
            Option.isNone_iff_eq_none.mp (Bool.and_elim_right hg)
          exact hadd st.result q cross hcross hnone hQ
        · rw [if_neg hn] at h
          cases h
          exact hQ
  · rw [if_neg hg] at h
    cases h
    exact hQ

theorem ordersLoop_result_pres (analyze : Bool) (itq vtq : Nat → List Quota)
    (line : OrderLine) (st st' : EngineState)
    (Q : (Quota → Option (Availability × Option Int)) → Prop) (hadd : AddStable Q)
    (hQ : Q st.result) (h : ordersLoop analyze itq vtq st line = .ok st') : Q st'.result := by
  refine foldlM_pres (ordersBody analyze line) (fun s => Q s.result) ?_ _ st st' hQ h
  intro s x s' hP hs
  unfold ordersBody at hs
  refine consume_result_pres analyze _ _ ?_ _ _ s s' x Q hadd hP hs
  by_cases hp : (line.order_status == STATUS_PAID) = true <;> simp [hp]

theorem ordersPass_result_pres (analyze : Bool) (itq vtq : Nat → List Quota)
    (lines : List OrderLine) (st st' : EngineState)
    (Q : (Quota → Option (Availability × Option Int)) → Prop) (hadd : AddStable Q)
    (hQ : Q st.result) (h : ordersPass analyze itq vtq lines st = .ok st') : Q st'.result := by
  refine foldlM_pres (ordersLoop analyze itq vtq) (fun s => Q s.result) ?_ _ st st' hQ h
  intro s x s' hP hs
  exact ordersLoop_result_pres analyze itq vtq x s s' Q hadd hP hs

theorem vouchersLoop_result_pres (analyze : Bool) (quotas : List Quota)
    (itq vtq : Nat → List Quota) (line : VoucherLine) (st st' : EngineState)
    (Q : (Quota → Option (Availability × Option Int)) → Prop) (hadd : AddStable Q)
    (hQ : Q st.result) (h : vouchersLoop analyze quotas itq vtq st line = .ok st') :
    Q st'.result := by
  unfold vouchersLoop at h
  cases hqs : voucherQs quotas itq vtq line with
  | error e => rw [hqs] at h; simp [Bind.bind, Except.bind] at h
  | ok qs =>
    rw [hqs] at h
    simp only [Bind.bind, Except.bind] at h
    refine foldlM_pres (vouchersBody analyze line) (fun s => Q s.result) ?_ qs st st' hQ h
    intro s x s' hP hs
    unfold vouchersBody at hs
    exact consume_result_pres analyze _ _ (by simp) _ _ s s' x Q hadd hP hs

theorem vouchersPass_result_pres (analyze : Bool) (quotas : List Quota)
    (itq vtq : Nat → List Quota) (lines : List VoucherLine) (st st' : EngineState)
    (Q : (Quota → Option (Availability × Option Int)) → Prop) (hadd : AddStable Q)
    (hQ : Q st.result) (h : vouchersPass analyze quotas itq vtq lines st = .ok st') :
    Q st'.result := by
  refine foldlM_pres (vouchersLoop analyze quotas itq vtq) (fun s => Q s.result) ?_ _ st st' hQ h
  intro s x s' hP hs
  exact vouchersLoop_result_pres analyze quotas itq vtq x s s' Q hadd hP hs

theorem waitingPass_result_pres (analyze : Bool) (itq vtq : Nat → List Quota)
    (lines : List CountLine) (st st' : EngineState)
    (Q : (Quota → Option (Availability × Option Int)) → Prop) (hadd : AddStable Q)
    (hQ : Q st.result) (h : waitingPass analyze itq vtq lines st = .ok st') : Q st'.result := by
  refine foldlM_pres (waitingLoop analyze itq vtq) (fun s => Q s.result) ?_ _ st st' hQ h
  intro s x s' hP hs
  refine foldlM_pres (waitingBody analyze x) (fun s => Q s.result) ?_ _ s s' hP hs
  intro t y t' hT ht
  unfold waitingBody at ht
  exact consume_result_pres analyze _ _ (by simp) _ _ t t' y Q hadd hT ht

theorem cartPass_result_pres (analyze : Bool) (itq vtq : Nat → List Quota)
    (lines : List CountLine) (st st' : EngineState)
    (Q : (Quota → Option (Availability × Option Int)) → Prop) (hadd : AddStable Q)
    (hQ : Q st.result) (h : cartPass analyze itq vtq lines st = .ok st') : Q st'.result := by
  refine foldlM_pres (cartLoop analyze itq vtq) (fun s => Q s.result) ?_ _ st st' hQ h
  intro s x s' hP hs
  refine foldlM_pres (cartBody analyze x) (fun s => Q s.result) ?_ _ s s' hP hs
  intro t y t' hT ht
  unfold cartBody at ht
  exact consume_result_pres analyze _ _ (by simp) _ _ t t' y Q hadd hT ht

/-- Shape of a predicate on the result dictionary that survives the final
OK entries (strictly positive remaining at a previously unresolved quota). -/
def OKStable (Q : (Quota → Option (Availability × Option Int)) → Prop) : Prop :=
  ∀ (res : Quota → Option (Availability × Option Int)) (x : Quota) (n : Int),
    0 < n → res x = none → Q res →
    Q (fun y => if y = x then some (Availability.OK, some n) else res y)

theorem finalize_result_pres (quotas : List Quota) (st : EngineState)
    (m : Quota → Option (Availability × Option Int))
    (Q : (Quota → Option (Availability × Option Int)) → Prop) (hok : OKStable Q)
    (hQ : Q st.result) (h : finalize quotas st = .ok m) : Q m := by
  unfold finalize at h
  refine foldlM_pres _ Q ?_ quotas st.result m hQ h
  intro r x r' hP hs
  by_cases hr : (r x).isNone
  · rw [if_pos hr] at hs
    cases hsz : st.size_left x with
    | none => rw [hsz] at hs; cases hs
    | some n =>
      rw [hsz] at hs
      dsimp only at hs
      by_cases hn : n > 0
      · rw [if_pos hn] at hs
        cases hs
        exact hok r x n hn (Option.isNone_iff_eq_none.mp hr) hP
      · rw [if_neg hn] at hs
        cases hs
        exact hP
  · rw [if_neg hr] at hs
    cases hs
    exact hP

/-- Master run lemma: a predicate on the result dictionary that holds after
seeding and is stable under crossing entries and final OK entries holds of
the mapping returned by a successful decision-mode run. -/
theorem calc_result_pres (quotas : List Quota) (q_items : List QItemRow)
    (q_vars : List QVarRow) (op_lookup : List OrderLine) (v_lookup : List VoucherLine)
    (w_lookup : List CountLine) (cart_lookup : List CountLine)
    (count_waitinglist ignore_closed : Bool)
    (m : Quota → Option (Availability × Option Int))
    (Q : (Quota → Option (Availability × Option Int)) → Prop)
    (hadd : AddStable Q) (hok : OKStable Q)
    (hQ0 : Q (seedPass quotas ignore_closed false).result)
    (hrun : calculate_availabilities quotas q_items q_vars op_lookup v_lookup w_lookup
      cart_lookup count_waitinglist ignore_closed false = .ok (.avail m)) : Q m := by
  unfold calculate_availabilities at hrun
  by_cases h0 : (!false && allResolved quotas (seedPass quotas ignore_closed false)) = true
  · rw [if_pos h0] at hrun
    cases hrun
    exact hQ0
  · rw [if_neg h0] at hrun
    simp only [Bind.bind, Except.bind] at hrun
    cases h1 : ordersPass false (item_to_quota quotas (seedPass quotas ignore_closed false) q_items)
      (var_to_quota quotas (seedPass quotas ignore_closed false) q_vars) op_lookup
      (seedPass quotas ignore_closed false) with
    | error e => rw [h1] at hrun; cases hrun
    | ok st1 =>
      rw [h1] at hrun
      have hQ1 : Q st1.result := ordersPass_result_pres false _ _ op_lookup _ st1 Q hadd hQ0 h1
      by_cases e1 : (!false && allResolved quotas st1) = true
      · simp only [e1, if_true, pure, Except.pure] at hrun
        cases hrun
        exact hQ1
      · simp only [e1, Bool.false_eq_true, if_false] at hrun
        cases h2 : vouchersPass false quotas
          (item_to_quota quotas (seedPass quotas ignore_closed false) q_items)
          (var_to_quota quotas (seedPass quotas ignore_closed false) q_vars) v_lookup st1 with
        | error e => rw [h2] at hrun; cases hrun
        | ok st2 =>
          rw [h2] at hrun
          have hQ2 : Q st2.result :=
            vouchersPass_result_pres false quotas _ _ v_lookup st1 st2 Q hadd hQ1 h2
          by_cases e2 : (!false && allResolved quotas st2) = true
          · simp only [e2, if_true, pure, Except.pure] at hrun
            cases hrun
            exact hQ2
          · simp only [e2, Bool.false_eq_true, if_false] at hrun
            cases hcw : count_waitinglist with
            | false =>
              subst hcw
              simp only [Bool.false_eq_true, if_false, pure, Except.pure] at hrun
              cases h4 : cartPass false
                (item_to_quota quotas (seedPass quotas ignore_closed false) q_items)
                (var_to_quota quotas (seedPass quotas ignore_closed false) q_vars)
                cart_lookup st2 with
              | error e => rw [h4] at hrun; simp [pure, Except.pure] at hrun
              | ok st4 =>
                rw [h4] at hrun
                have hQ4 : Q st4.result :=
                  cartPass_result_pres false _ _ cart_lookup st2 st4 Q hadd hQ2 h4
                simp only [Bool.false_and, Bool.false_eq_true, if_false] at hrun
                cases h5 : finalize quotas st4 with
                | error e => rw [h5] at hrun; simp [pure, Except.pure] at hrun
                | ok mfin =>
                  rw [h5] at hrun
                  simp only [pure, Except.pure] at hrun
                  cases hrun
                  exact finalize_result_pres quotas st4 _ Q hok hQ4 h5
            | true =>
              subst hcw
              simp only [if_true] at hrun
              cases h3 : waitingPass false
                (item_to_quota quotas (seedPass quotas ignore_closed false) q_items)
                (var_to_quota quotas (seedPass quotas ignore_closed false) q_vars)
                w_lookup st2 with
              | error e => rw [h3] at hrun; simp [pure, Except.pure] at hrun
              | ok st3 =>
                rw [h3] at hrun
                have hQ3 : Q st3.result :=
                  waitingPass_result_pres false _ _ w_lookup st2 st3 Q hadd hQ2 h3
                by_cases e3 : (true && (!false && allResolved quotas st3)) = true
                · simp only [e3, if_true, pure, Except.pure] at hrun
                  cases hrun
                  exact hQ3
                · simp only [e3, Bool.false_eq_true, if_false] at hrun
                  cases h4 : cartPass false
                    (item_to_quota quotas (seedPass quotas ignore_closed false) q_items)
                    (var_to_quota quotas (seedPass quotas ignore_closed false) q_vars)
                    cart_lookup st3 with
                  | error e => rw [h4] at hrun; simp [pure, Except.pure] at hrun
                  | ok st4 =>
                    rw [h4] at hrun
                    have hQ4 : Q st4.result :=
                      cartPass_result_pres false _ _ cart_lookup st3 st4 Q hadd hQ3 h4
                    simp only [Bool.false_eq_true, if_false] at hrun
                    cases h5 : finalize quotas st4 with
                    | error e => rw [h5] at hrun; simp [pure, Except.pure] at hrun
                    | ok mfin =>
                      rw [h5] at hrun
                      simp only [pure, Except.pure] at hrun
                      cases hrun
                      exact finalize_result_pres quotas st4 _ Q hok hQ4 h5

/-! ## Order of the status strings -/

theorem strLtB_asymm : ∀ (x y : List Char), strLtB x y = true → strLtB y x = false := by
  intro x
  induction x with
  | nil =>
    intro y h
    cases y with
    | nil => simp [strLtB] at h
    | cons b bs => simp [strLtB]
  | cons a as ih =>
    intro y h
    cases y with
    | nil => simp [strLtB] at h
    | cons b bs =>
      simp only [strLtB] at h ⊢
      rcases Nat.lt_trichotomy a.toNat b.toNat with hlt | heq | hgt
      · simp [hlt, Nat.lt_asymm hlt]
      · simp only [heq, lt_irrefl, if_false] at h ⊢
        exact ih bs h
      · simp [hgt, Nat.lt_asymm hgt] at h

theorem strLtB_neg_trans :
    ∀ (x y z : List Char), strLtB x y = false → strLtB y z = false → strLtB x z = false := by
  intro x
  induction x with
  | nil =>
    intro y z h1 h2
    cases y with
    | nil =>
      cases z with
      | nil => simp [strLtB]
      | cons c cs => simp [strLtB] at h2
    | cons b bs => simp [strLtB] at h1
  | cons a as ih =>
    intro y z h1 h2
    cases z with
    | nil => simp [strLtB]
    | cons c cs =>
      cases y with
      | nil => simp [strLtB] at h2
      | cons b bs =>
        simp only [strLtB] at h1 h2 ⊢
        rcases Nat.lt_trichotomy a.toNat b.toNat with hab | hab | hab
        · simp [hab] at h1
        · rcases Nat.lt_trichotomy b.toNat c.toNat with hbc | hbc | hbc
          · simp [hbc] at h2
          · have hac : ¬ a.toNat < c.toNat := by omega
            have hca : ¬ c.toNat < a.toNat := by omega
            simp only [hab, lt_irrefl, if_false] at h1
            simp only [hbc, lt_irrefl, if_false] at h2
            simp only [hac, if_false, hca]
            exact ih bs cs h1 h2
          · have hac : ¬ a.toNat < c.toNat := by omega
            have hca : c.toNat < a.toNat := by omega
            simp [hac, hca]
        · rcases Nat.lt_trichotomy b.toNat c.toNat with hbc | hbc | hbc
          · simp [hbc] at h2
          · have hac : ¬ a.toNat < c.toNat := by omega
            have hca : c.toNat < a.toNat := by omega
            simp [hac, hca]
          · have hac : ¬ a.toNat < c.toNat := by omega
            have hca : c.toNat < a.toNat := by omega
            simp [hac, hca]

theorem orderDescLE_trans (a b c : OrderLine) (h1 : orderDescLE a b = true)
    (h2 : orderDescLE b c = true) : orderDescLE a c = true := by
  unfold orderDescLE at h1 h2 ⊢
  simp only [Bool.not_eq_true'] at h1 h2
  simp only [Bool.not_eq_true']
  exact strLtB_neg_trans _ _ _ h1 h2

theorem orderDescLE_total (a b : OrderLine) : (orderDescLE a b || orderDescLE b a) = true := by
  unfold orderDescLE
  cases h : strLtB a.order_status.data b.order_status.data with
  | false => simp
  | true => simp [strLtB_asymm _ _ h]

theorem strLtB_n_p : strLtB STATUS_PENDING.data STATUS_PAID.data = true := by decide

instance orderDescRel.isTotal : IsTotal OrderLine orderDescRel := by
  constructor
  intro a b
  rcases Bool.or_eq_true_iff.mp (orderDescLE_total a b) with h | h
  · exact Or.inl h
  · exact Or.inr h

instance orderDescRel.isTrans : IsTrans OrderLine orderDescRel := by
  constructor
  intro a b c h1 h2
  exact orderDescLE_trans a b c h1 h2

/-- The sorted order line list never places a pending group before a paid
group: every element preceding a paid element is itself paid. -/
theorem sorted_op_paid_first (lines : List OrderLine) :
    (sorted_op_lookup lines).Pairwise
      (fun a b => b.order_status = STATUS_PAID → a.order_status = STATUS_PAID) := by
  unfold sorted_op_lookup
  have hs := List.sorted_insertionSort orderDescRel
    (lines.filter (fun l => l.order_status == STATUS_PAID || l.order_status == STATUS_PENDING))
  refine hs.imp_of_mem ?_
  intro a b ha hb hle hbp
  have ha2 := (List.perm_insertionSort orderDescRel
    (lines.filter (fun l => l.order_status == STATUS_PAID || l.order_status == STATUS_PENDING))).mem_iff.mp ha
  have hmem := (List.mem_filter.mp ha2).2
  rcases Bool.or_eq_true_iff.mp hmem with hp | hn
  · exact beq_iff_eq.mp hp
  · exfalso
    have han : a.order_status = STATUS_PENDING := beq_iff_eq.mp hn
    unfold orderDescRel orderDescLE at hle
    rw [han, hbp] at hle
    rw [strLtB_n_p] at hle
    simp at hle

/-- Evaluation of one loop body when the stored counter holds an integer:
the body always succeeds, and the counter of `q` is decremented exactly when
the sub-events are equal and `q` is unresolved. -/
theorem consume_size (analyze : Bool) (key : String) (cross : Availability)
    (sub : Option Nat) (c : Int) (st : EngineState) (q : Quota) (n : Int)
    (hsz : st.size_left q = some n) :
    ∃ st', consume analyze key cross sub c st q = .ok st' ∧
      st'.size_left q =
        (if q.subevent_id = sub ∧ st.result q = none then some (n - c) else some n) := by
  unfold consume
  by_cases hg : (q.subevent_id == sub && (st.result q).isNone) = true
  · have hg2 : q.subevent_id = sub ∧ st.result q = none :=
      ⟨beq_iff_eq.mp (Bool.and_elim_left hg),
       Option.isNone_iff_eq_none.mp (Bool.and_elim_right hg)⟩
    rw [if_pos hg, hsz]
    simp only [pySub]
    by_cases ha : analyze = true
    · subst ha
      refine ⟨_, rfl, ?_⟩
      simp [hg2]
    · simp only [Bool.not_eq_true] at ha
      subst ha
      simp only [Bool.false_eq_true, if_false]
      by_cases hn : n - c ≤ 0
      · rw [if_pos hn]
        refine ⟨_, rfl, ?_⟩
        simp [hg2]
      · rw [if_neg hn]
        refine ⟨_, rfl, ?_⟩
        simp [hg2]
  · have hg2 : ¬(q.subevent_id = sub ∧ st.result q = none) := by
      intro hc
      apply hg
      rw [Bool.and_eq_true]
      exact ⟨beq_iff_eq.mpr hc.1, Option.isNone_iff_eq_none.mpr hc.2⟩
    rw [if_neg hg]
    exact ⟨st, rfl, by simp [hg2, hsz]⟩

/-- Evaluation of one loop body at a crossing in decision mode: when the
sub-events are equal, `q` is unresolved and the decremented counter drops to
`<= 0`, the body resolves `q` to `(cross, 0)`. -/
theorem consume_cross (key : String) (cross : Availability) (sub : Option Nat) (c : Int)
    (st : EngineState) (q : Quota) (n : Int)
    (hsz : st.size_left q = some n) (hres : st.result q = none) (hsub : q.subevent_id = sub)
    (hneg : n - c ≤ 0) :
    ∃ st', consume false key cross sub c st q = .ok st' ∧ st'.result q = some (cross, some 0) := by
  unfold consume
  have hg : (q.subevent_id == sub && (st.result q).isNone) = true := by
    rw [Bool.and_eq_true]
    exact ⟨beq_iff_eq.mpr hsub, Option.isNone_iff_eq_none.mpr hres⟩
  rw [if_pos hg, hsz]
  simp only [pySub, Bool.false_eq_true, if_false]
  rw [if_pos hneg]
  exact ⟨_, rfl, by simp⟩

/-! ## Stability instances and seed case analysis -/

theorem addStable_pinned (q : Quota) (v : Availability × Option Int) :
    AddStable (fun res => res q = some v) := by
  intro res x a hne hx hQ
  by_cases hqx : q = x
  · rw [hqx] at hQ
    rw [hQ] at hx
    cases hx
  · simpa [hqx] using hQ

theorem okStable_pinned (q : Quota) (v : Availability × Option Int) :
    OKStable (fun res => res q = some v) := by
  intro res x n hn hx hQ
  by_cases hqx : q = x
  · rw [hqx] at hQ
    rw [hQ] at hx
    cases hx
  · simpa [hqx] using hQ

/-- Invariant: every resolved non-OK entry reports a remaining count of
exactly 0. -/
def Inv10 (res : Quota → Option (Availability × Option Int)) : Prop :=
  ∀ x a r, res x = some (a, r) → a ≠ Availability.OK → r = some 0

theorem addStable_inv10 : AddStable Inv10 := by
  intro res x a hne hx hQ y b r hy hb
  by_cases hyx : y = x
  · simp only [hyx, if_pos rfl] at hy
    cases hy
    rfl
  · simp only [hyx, if_neg hyx] at hy
    exact hQ y b r hy hb

theorem okStable_inv10 : OKStable Inv10 := by
  intro res x n hn hx hQ y b r hy hb
  by_cases hyx : y = x
  · simp only [hyx, if_pos rfl] at hy
    cases hy
    exact absurd rfl hb
  · simp only [hyx, if_neg hyx] at hy
    exact hQ y b r hy hb

/-- Invariant: every resolved OK entry with a concrete remaining count has a
strictly positive one. -/
def InvOK (res : Quota → Option (Availability × Option Int)) : Prop :=
  ∀ x n, res x = some (Availability.OK, some n) → 0 < n

theorem addStable_invOK : AddStable InvOK := by
  intro res x a hne hx hQ y n hy
  by_cases hyx : y = x
  · simp only [hyx, if_pos rfl] at hy
    cases hy
    exact absurd rfl hne
  · simp only [hyx, if_neg hyx] at hy
    exact hQ y n hy

theorem okStable_invOK : OKStable InvOK := by
  intro res x n hn hx hQ y k hy
  by_cases hyx : y = x
  · simp only [hyx, if_pos rfl] at hy
    cases hy
    exact hn
  · simp only [hyx, if_neg hyx] at hy
    exact hQ y k hy

theorem seedRes_cases (i a : Bool) (q : Quota) :
    seedRes i a q = none ∨ seedRes i a q = some (Availability.ORDERED, some 0) ∨
      seedRes i a q = some (Availability.OK, none) := by
  unfold seedRes
  by_cases h1 : (q.closed && !i && !a) = true
  · simp [h1]
  · by_cases h2 : (q.size.isNone && !a) = true <;> simp [h1, h2]

theorem seed_inv10 (quotas : List Quota) (i a : Bool) :
    Inv10 (seedPass quotas i a).result := by
  intro x b r hx hb
  rw [seed_result] at hx
  by_cases hm : x ∈ quotas
  · rw [if_pos hm] at hx
    rcases seedRes_cases i a x with h | h | h
    · rw [h] at hx; cases hx
    · rw [h] at hx; cases hx; rfl
    · rw [h] at hx; cases hx; exact absurd rfl hb
  · rw [if_neg hm] at hx
    cases hx

theorem seed_invOK (quotas : List Quota) (i a : Bool) :
    InvOK (seedPass quotas i a).result := by
  intro x n hx
  rw [seed_result] at hx
  by_cases hm : x ∈ quotas
  · rw [if_pos hm] at hx
    rcases seedRes_cases i a x with h | h | h
    · rw [h] at hx; cases hx
    · rw [h] at hx; cases hx
    · rw [h] at hx; cases hx
  · rw [if_neg hm] at hx
    cases hx

/-! ## Seed value computations in decision mode -/

theorem seedRes_closed (ig : Bool) (q : Quota) (h : (q.closed && !ig) = true) :
    seedRes ig false q = some (Availability.ORDERED, some 0) := by
  unfold seedRes
  simp [h]

theorem seedRes_unlimited (ig : Bool) (q : Quota) (h : (q.closed && !ig) = false)
    (hs : q.size = none) : seedRes ig false q = some (Availability.OK, none) := by
  unfold seedRes
  simp [h, hs]

theorem seedRes_open (ig : Bool) (q : Quota) (s : Int) (h : (q.closed && !ig) = false)
    (hs : q.size = some s) : seedRes ig false q = none := by
  unfold seedRes
  simp [h, hs]

/-! ## Claim theorems -/

/-- Claim C5 (confirmed): in decision mode the seed pass, before any data
access, resolves every closed quota (with ignoreClosed false) to
(ORDERED, 0) — and a closed quota keeps that result in the final mapping
regardless of the consumption inputs — resolves every remaining quota with
unlimited size to (OK, unknown), and sets the starting remaining counter of
every other quota to its size.  The clauses follow the elif chain of source
lines 28-33: the closed check precedes the unlimited check. -/
theorem c5_seed_pass (quotas : List Quota) (q : Quota) (ignore_closed : Bool)
    (hq : q ∈ quotas) :
    ((q.closed && !ignore_closed) = true →
      (seedPass quotas ignore_closed false).result q = some (Availability.ORDERED, some 0)) ∧
    ((q.closed && !ignore_closed) = false → q.size = none →
      (seedPass quotas ignore_closed false).result q = some (Availability.OK, none)) ∧
    (∀ s : Int, (q.closed && !ignore_closed) = false → q.size = some s →
      (seedPass quotas ignore_closed false).result q = none ∧
      (seedPass quotas ignore_closed false).size_left q = some s) ∧
    (∀ (q_items : List QItemRow) (q_vars : List QVarRow) (op : List OrderLine)
       (v : List VoucherLine) (w cart : List CountLine) (cw : Bool)
       (m : Quota → Option (Availability × Option Int)),
      (q.closed && !ignore_closed) = true →
      calculate_availabilities quotas q_items q_vars op v w cart cw ignore_closed false =
        .ok (.avail m) →
      m q = some (Availability.ORDERED, some 0)) := by
  refine ⟨?_, ?_, ?_, ?_⟩
  · intro hg
    rw [seed_result, if_pos hq]
    exact seedRes_closed ignore_closed q hg
  · intro hg hs
    rw [seed_result, if_pos hq]
    exact seedRes_unlimited ignore_closed q hg hs
  · intro s hg hs
    constructor
    · rw [seed_result, if_pos hq]
      exact seedRes_open ignore_closed q s hg hs
    · rw [seed_size, if_pos ⟨hq, seedRes_open ignore_closed q s hg hs⟩, hs]
  · intro q_items q_vars op v w cart cw m hg hrun
    refine calc_result_pres quotas q_items q_vars op v w cart cw ignore_closed m
      (fun res => res q = some (Availability.ORDERED, some 0))
      (addStable_pinned q _) (okStable_pinned q _) ?_ hrun
    show (seedPass quotas ignore_closed false).result q = some (Availability.ORDERED, some 0)
    rw [seed_result, if_pos hq]
    exact seedRes_closed ignore_closed q hg

def c5qC : Quota := ⟨1, 1, none, some 5, true⟩

def c5qS : Quota := ⟨2, 1, none, some 3, false⟩

theorem c5_witness :
    (seedPass [c5qC, c5qS] false false).result c5qC = some (Availability.ORDERED, some 0) ∧
    availOf (calculate_availabilities [c5qC, c5qS] [] [] [] [] [] [] true false false) c5qC =
      some (Availability.ORDERED, some 0) := by
  have h := c5_seed_pass [c5qC, c5qS] c5qC false (by decide)
  refine ⟨h.1 (by decide), ?_⟩
  exact h.2.2.2 [] [] [] [] [] [] true
    (fun x => availOf (calculate_availabilities [c5qC, c5qS] [] [] [] [] [] [] true false false) x)
    (by decide) (by rfl)

/-- Claim C7 (confirmed): once a quota has a result, no later pass changes
it — each of the four counting passes and the final loop preserve existing
result entries, and an entry present after seeding is returned unchanged by
a successful decision-mode run. -/
theorem c7_monotonic_status :
    (∀ (analyze : Bool) (itq vtq : Nat → List Quota) (lines : List OrderLine)
       (st st' : EngineState) (q : Quota) (v : Availability × Option Int),
      ordersPass analyze itq vtq lines st = .ok st' → st.result q = some v →
      st'.result q = some v) ∧
    (∀ (analyze : Bool) (quotas : List Quota) (itq vtq : Nat → List Quota)
       (lines : List VoucherLine) (st st' : EngineState) (q : Quota)
       (v : Availability × Option Int),
      vouchersPass analyze quotas itq vtq lines st = .ok st' → st.result q = some v →
      st'.result q = some v) ∧
    (∀ (analyze : Bool) (itq vtq : Nat → List Quota) (lines : List CountLine)
       (st st' : EngineState) (q : Quota) (v : Availability × Option Int),
      waitingPass analyze itq vtq lines st = .ok st' → st.result q = some v →
      st'.result q = some v) ∧
    (∀ (analyze : Bool) (itq vtq : Nat → List Quota) (lines : List CountLine)
       (st st' : EngineState) (q : Quota) (v : Availability × Option Int),
      cartPass analyze itq vtq lines st = .ok st' → st.result q = some v →
      st'.result q = some v) ∧
    (∀ (quotas : List Quota) (st : EngineState)
       (m : Quota → Option (Availability × Option Int)) (q : Quota)
       (v : Availability × Option Int),
      finalize quotas st = .ok m → st.result q = some v → m q = some v) ∧
    (∀ (quotas : List Quota) (q_items : List QItemRow) (q_vars : List QVarRow)
       (op : List OrderLine) (v_lookup : List VoucherLine) (w cart : List CountLine)
       (cw ic : Bool) (m : Quota → Option (Availability × Option Int)) (q : Quota)
       (v : Availability × Option Int),
      calculate_availabilities quotas q_items q_vars op v_lookup w cart cw ic false =
        .ok (.avail m) →
      (seedPass quotas ic false).result q = some v → m q = some v) := by
  refine ⟨?_, ?_, ?_, ?_, ?_, ?_⟩
  · intro analyze itq vtq lines st st' q v h hv
    exact ordersPass_result_pres analyze itq vtq lines st st' _ (addStable_pinned q v) hv h
  · intro analyze quotas itq vtq lines st st' q v h hv
    exact vouchersPass_result_pres analyze quotas itq vtq lines st st' _
      (addStable_pinned q v) hv h
  · intro analyze itq vtq lines st st' q v h hv
    exact waitingPass_result_pres analyze itq vtq lines st st' _ (addStable_pinned q v) hv h
  · intro analyze itq vtq lines st st' q v h hv
    exact cartPass_result_pres analyze itq vtq lines st st' _ (addStable_pinned q v) hv h
  · intro quotas st m q v h hv
    exact finalize_result_pres quotas st m _ (okStable_pinned q v) hv h
  · intro quotas q_items q_vars op v_lookup w cart cw ic m q v hrun hv
    exact calc_result_pres quotas q_items q_vars op v_lookup w cart cw ic m _
      (addStable_pinned q v) (okStable_pinned q v) hv hrun

def c7q : Quota := ⟨9, 1, none, some 4, true⟩

theorem c7_witness :
    (seedPass [c7q] false false).result c7q = some (Availability.ORDERED, some 0) ∧
    availOf (calculate_availabilities [c7q] [] [] [] [] [] [] true false false) c7q =
      some (Availability.ORDERED, some 0) := by
  refine ⟨rfl, ?_⟩
  exact c7_monotonic_status.2.2.2.2.2 [c7q] [] [] [] [] [] [] true false
    (fun x => availOf (calculate_availabilities [c7q] [] [] [] [] [] [] true false false) x)
    c7q (Availability.ORDERED, some 0) rfl rfl

/-- Claim C10 (confirmed): every entry of the returned mapping whose status
is GONE, ORDERED or RESERVED carries a remaining count of exactly 0, even
when total consumption strictly exceeds the quota size — the negative
remainder is never exposed. -/
theorem c10_resolved_remaining_zero (quotas : List Quota) (q_items : List QItemRow)
    (q_vars : List QVarRow) (op : List OrderLine) (v : List VoucherLine)
    (w cart : List CountLine) (cw ic : Bool)
    (m : Quota → Option (Availability × Option Int))
    (hrun : calculate_availabilities quotas q_items q_vars op v w cart cw ic false =
      .ok (.avail m)) :
    ∀ q a r, m q = some (a, r) → a ≠ Availability.OK → r = some 0 :=
  calc_result_pres quotas q_items q_vars op v w cart cw ic m Inv10
    addStable_inv10 okStable_inv10 (seed_inv10 quotas ic false) hrun

def c10q : Quota := ⟨1, 1, none, some 5, false⟩

def c10line : OrderLine := ⟨"p", 7, none, none, 12⟩

theorem c10_witness :
    availOf (calculate_availabilities [c10q] [⟨1, 7⟩] [] [c10line] [] [] [] true false false)
        c10q = some (Availability.GONE, some 0) ∧ (some 0 : Option Int) = some 0 := by
  refine ⟨by rfl, ?_⟩
  exact c10_resolved_remaining_zero [c10q] [⟨1, 7⟩] [] [c10line] [] [] [] true false
    (fun x => availOf
      (calculate_availabilities [c10q] [⟨1, 7⟩] [] [c10line] [] [] [] true false false) x)
    (by rfl) c10q Availability.GONE (some 0) (by rfl) (by decide)

def c6q0 : Quota := ⟨2, 1, none, some 0, false⟩

/-- Claim C6 (counterexample): a bounded, open quota of size 0 with no
consumption at all is omitted from the returned mapping — the run succeeds
in decision mode, the quota is in the input set, yet the mapping has no
entry for it, although the claim requires an entry in
{GONE, ORDERED, RESERVED}. -/
theorem c6_counterexample :
    isAvailOk (calculate_availabilities [c6q0] [] [] [] [] [] [] true false false) = true ∧
    availOf (calculate_availabilities [c6q0] [] [] [] [] [] [] true false false) c6q0 = none ∧
    c6q0 ∈ [c6q0] ∧ c6q0.size = some 0 ∧ c6q0.closed = false := by
  refine ⟨by rfl, by rfl, by decide, by decide, by decide⟩

/-- Claim C6 (corrected): a successful decision-mode run returns a mapping
in which a quota of the input set can only be missing when it is bounded
and open (closed and unlimited quotas always have an entry), and every OK
entry carries a strictly positive remaining count — a quota is never mapped
to OK with remaining at or below zero.  (A bounded open quota whose seeded
counter is already at or below zero and which no consumption decrement
touches is omitted, as the counterexample shows.) -/
theorem c6_totality_amended (quotas : List Quota) (q_items : List QItemRow)
    (q_vars : List QVarRow) (op : List OrderLine) (v : List VoucherLine)
    (w cart : List CountLine) (cw ic : Bool)
    (m : Quota → Option (Availability × Option Int))
    (hrun : calculate_availabilities quotas q_items q_vars op v w cart cw ic false =
      .ok (.avail m)) :
    (∀ q, q ∈ quotas → m q = none →
      (∃ s, q.size = some s) ∧ (q.closed && !ic) = false) ∧
    (∀ q n, m q = some (Availability.OK, some n) → 0 < n) := by
  constructor
  · intro q hq hnone
    have hclosed : (q.closed && !ic) = false := by
      by_cases hg : (q.closed && !ic) = true
      · exfalso
        have hp := calc_result_pres quotas q_items q_vars op v w cart cw ic m
          (fun res => res q = some (Availability.ORDERED, some 0))
          (addStable_pinned q _) (okStable_pinned q _) ?_ hrun
        · rw [hp] at hnone; cases hnone
        · show (seedPass quotas ic false).result q = some (Availability.ORDERED, some 0)
          rw [seed_result, if_pos hq]
          exact seedRes_closed ic q hg
      · exact Bool.not_eq_true _ ▸ (Bool.eq_false_iff.mpr hg)
    refine ⟨?_, hclosed⟩
    cases hsz : q.size with
    | some s => exact ⟨s, rfl⟩
    | none =>
      exfalso
      have hp := calc_result_pres quotas q_items q_vars op v w cart cw ic m
        (fun res => res q = some (Availability.OK, none))
        (addStable_pinned q _) (okStable_pinned q _) ?_ hrun
      · rw [hp] at hnone; cases hnone
      · show (seedPass quotas ic false).result q = some (Availability.OK, none)
        rw [seed_result, if_pos hq]
        exact seedRes_unlimited ic q hclosed hsz
  · exact calc_result_pres quotas q_items q_vars op v w cart cw ic m InvOK
      addStable_invOK okStable_invOK (seed_invOK quotas ic false) hrun

def c6qok : Quota := ⟨1, 1, none, some 10, false⟩

theorem c6_witness : 0 < (10 : Int) ∧
    availOf (calculate_availabilities [c6qok] [] [] [] [] [] [] true false false) c6qok =
      some (Availability.OK, some 10) := by
  refine ⟨?_, by rfl⟩
  exact (c6_totality_amended [c6qok] [] [] [] [] [] [] true false
    (fun x => availOf (calculate_availabilities [c6qok] [] [] [] [] [] [] true false false) x)
    (by rfl)).2 c6qok 10 (by rfl)

/-- Claim C4 (confirmed): the orders pass iterates the grouped lines sorted
descending by status string, so every paid group precedes every pending
group (no pending line ever comes before a paid line); and when a loop body
drives the counter of an unresolved, sub-event-matching quota to at most 0,
the quota resolves to GONE when the line is paid and to ORDERED when it is
pending. -/
theorem c4_paid_before_pending :
    (∀ lines : List OrderLine,
      (sorted_op_lookup lines).Pairwise
        (fun a b => b.order_status = STATUS_PAID → a.order_status = STATUS_PAID)) ∧
    (∀ (line : OrderLine) (st : EngineState) (q : Quota) (n : Int),
      st.size_left q = some n → st.result q = none → q.subevent_id = line.subevent_id →
      n - line.c ≤ 0 →
      ∃ st', ordersBody false line st q = .ok st' ∧
        st'.result q = some
          (if line.order_status = STATUS_PAID then Availability.GONE else Availability.ORDERED,
            some 0)) := by
  constructor
  · exact sorted_op_paid_first
  · intro line st q n hsz hres hsub hneg
    unfold ordersBody
    have h := consume_cross ("order_" ++ line.order_status)
      (if line.order_status == STATUS_PAID then Availability.GONE else Availability.ORDERED)
      line.subevent_id line.c st q n hsz hres hsub hneg
    by_cases hp : line.order_status = STATUS_PAID
    · simpa [hp] using h
    · have hp2 : (line.order_status == STATUS_PAID) = false := beq_eq_false_iff_ne.mpr hp
      simpa [hp, hp2] using h

def c4q : Quota := ⟨1, 1, some 3, some 5, false⟩

def c4line : OrderLine := ⟨"p", 7, some 3, none, 12⟩

theorem c4_witness :
    (sorted_op_lookup [⟨"n", 7, none, none, 1⟩, ⟨"p", 7, none, none, 1⟩]).Pairwise
      (fun a b => b.order_status = STATUS_PAID → a.order_status = STATUS_PAID) ∧
    (∃ st', ordersBody false c4line (seedPass [c4q] false false) c4q = .ok st' ∧
      st'.result c4q = some
        (if c4line.order_status = STATUS_PAID then Availability.GONE else Availability.ORDERED,
          some 0)) := by
  constructor
  · exact c4_paid_before_pending.1 [⟨"n", 7, none, none, 1⟩, ⟨"p", 7, none, none, 1⟩]
  · exact c4_paid_before_pending.2 c4line (seedPass [c4q] false false) c4q 5
      (by rfl) (by rfl) (by decide) (by decide)

/-- Projection of the counter of one quota after a successful loop run. -/
def sizeLeftAfter : Except String EngineState → Quota → Option Int
  | .ok st, q => st.size_left q
  | .error _, _ => none

def c1q : Quota := ⟨1, 1, none, some 5, false⟩

def c1line : OrderLine := ⟨"p", 7, some 1, none, 2⟩

def c1itq : Nat → List Quota := fun i => if i = 7 then [c1q] else []

/-- Claim C1 (counterexample): a quota with no sub-event scoping
(`subevent_id = none`) is NOT affected by a consumption record of sub-event
1, although the record reaches the quota through the membership index and
the quota is unresolved: the counter stays at 5 instead of dropping to 3.
The loop condition demands exact equality of the sub-events, so a null
sub-event matches only null records. -/
theorem c1_counterexample :
    sizeLeftAfter (ordersLoop false c1itq (fun _ => []) (seedPass [c1q] false false) c1line)
      c1q = some 5 ∧
    c1q.subevent_id = none ∧ c1line.subevent_id = some 1 ∧ c1line.c = 2 ∧
    (seedPass [c1q] false false).size_left c1q = some 5 ∧
    (seedPass [c1q] false false).result c1q = none ∧
    c1itq c1line.item_id = [c1q] := by
  refine ⟨by rfl, by decide, by decide, by decide, by rfl, by rfl, by decide⟩

/-- Claim C1 (corrected): in each of the four counting loops, the count of
a grouped consumption record is subtracted from the counter of a quota the
record reaches if and only if the sub-event of the record is exactly equal
to the sub-event of the quota (null matching only null) and the quota is
still unresolved; otherwise the counter is unchanged.  In particular a
record for sub-event A never affects a quota scoped to sub-event B, and a
quota with null sub-event is affected only by records with null
sub-event. -/
theorem c1_subevent_scoping_amended :
    (∀ (analyze : Bool) (line : OrderLine) (st : EngineState) (q : Quota) (n : Int),
      st.size_left q = some n →
      ∃ st', ordersBody analyze line st q = .ok st' ∧
        st'.size_left q =
          (if q.subevent_id = line.subevent_id ∧ st.result q = none
           then some (n - line.c) else some n)) ∧
    (∀ (analyze : Bool) (line : VoucherLine) (st : EngineState) (q : Quota) (n : Int),
      st.size_left q = some n →
      ∃ st', vouchersBody analyze line st q = .ok st' ∧
        st'.size_left q =
          (if q.subevent_id = line.subevent_id ∧ st.result q = none
           then some (n - line.free) else some n)) ∧
    (∀ (analyze : Bool) (line : CountLine) (st : EngineState) (q : Quota) (n : Int),
      st.size_left q = some n →
      ∃ st', waitingBody analyze line st q = .ok st' ∧
        st'.size_left q =
          (if q.subevent_id = line.subevent_id ∧ st.result q = none
           then some (n - line.c) else some n)) ∧
    (∀ (analyze : Bool) (line : CountLine) (st : EngineState) (q : Quota) (n : Int),
      st.size_left q = some n →
      ∃ st', cartBody analyze line st q = .ok st' ∧
        st'.size_left q =
          (if q.subevent_id = line.subevent_id ∧ st.result q = none
           then some (n - line.c) else some n)) := by
  refine ⟨?_, ?_, ?_, ?_⟩
  · intro analyze line st q n hsz
    exact consume_size analyze _ _ line.subevent_id line.c st q n hsz
  · intro analyze line st q n hsz
    exact consume_size analyze _ _ line.subevent_id line.free st q n hsz
  · intro analyze line st q n hsz
    exact consume_size analyze _ _ line.subevent_id line.c st q n hsz
  · intro analyze line st q n hsz
    exact consume_size analyze _ _ line.subevent_id line.c st q n hsz

def c1wq : Quota := ⟨3, 1, some 4, some 5, false⟩

def c1wline : OrderLine := ⟨"p", 7, some 4, none, 2⟩

theorem c1_witness :
    ∃ st', ordersBody false c1wline (seedPass [c1wq] false false) c1wq = .ok st' ∧
      st'.size_left c1wq =
        (if c1wq.subevent_id = c1wline.subevent_id ∧
            (seedPass [c1wq] false false).result c1wq = none
         then some (5 - c1wline.c) else some 5) :=
  c1_subevent_scoping_amended.1 false c1wline (seedPass [c1wq] false false) c1wq 5 (by rfl)

def c3q : SchedQuota := ⟨1, some 80000, some ⟨-2000000, some (-2000000)⟩⟩

/-- Claim C3 (counterexample): a quota whose cached timestamp (80000) is
older than the 2-hour ceiling (100000 - 7200) is nevertheless NOT selected
by the sweep, because its sub-event ended more than 14 days before the
reference time — the claim asserts unconditional selection of quotas with a
cache older than 2 hours. -/
theorem c3_counterexample :
    sweepSelects 100000 0 c3q = false ∧
    c3q.cached_availability_time = some 80000 ∧ (80000 : Int) < 100000 - 2 * 3600 := by
  refine ⟨by decide, by decide, by decide⟩

/-- Claim C3 (corrected): within a sweep over an active event, a quota with
a cached timestamp older than the 2-hour ceiling is selected even when the
event has no activity newer than the cache, provided the quota passes the
sub-event recency filter (unscoped, or ending — or, lacking an end date,
starting — within the last 14 days or later); and a quota whose cached
timestamp is at least the latest-activity timestamp and at least the
2-hour ceiling is never selected, whatever its sub-event. -/
theorem c3_staleness_selection_amended (now_t last_activity t : Int) (q : SchedQuota)
    (hc : q.cached_availability_time = some t) :
    (t < now_t - 2 * 3600 → subeventCurrent now_t q = true →
      sweepSelects now_t last_activity q = true) ∧
    (last_activity ≤ t → now_t - 2 * 3600 ≤ t →
      sweepSelects now_t last_activity q = false) := by
  constructor
  · intro h1 h2
    unfold sweepSelects quotaStale
    rw [hc, h2]
    simp only [Bool.and_true, Bool.or_eq_true, decide_eq_true_eq]
    omega
  · intro h1 h2
    unfold sweepSelects quotaStale
    rw [hc]
    have hn1 : ¬ (t < last_activity) := not_lt.mpr h1
    have hn2 : ¬ (t < now_t - 2 * 3600) := not_lt.mpr h2
    simp only [Bool.and_eq_false_iff, Bool.or_eq_false_iff, decide_eq_false_iff_not]
    exact Or.inl ⟨hn1, hn2⟩

theorem c3_witness :
    sweepSelects 100000 0 ⟨1, some 80000, none⟩ = true ∧
    sweepSelects 100000 0 ⟨2, some 99000, none⟩ = false := by
  constructor
  · exact (c3_staleness_selection_amended 100000 0 80000 ⟨1, some 80000, none⟩ rfl).1
      (by decide) (by decide)
  · exact (c3_staleness_selection_amended 100000 0 99000 ⟨2, some 99000, none⟩ rfl).2
      (by decide) (by decide)

def c9ev1 : SchedEvent := ⟨1, [⟨1, none, none⟩, ⟨2, none, none⟩]⟩

def c9ev2 : SchedEvent := ⟨2, [⟨3, none, none⟩]⟩

def c9db : Nat → Option SchedEvent :=
  fun n => if n = 1 then some c9ev1 else if n = 2 then some c9ev2 else none

def c9bad : SchedQuota → Except String Unit :=
  fun q => if q.pk = 1 then .error "boom" else .ok ()

/-- Claim C9 (counterexample): a failure while computing the availability of
the first quota of the first event aborts the whole sweep — the sweep
returns the error instead of continuing, although with a non-failing
availability call the very same sweep processes quotas 1, 2 and 3.  Only
the event lookup is guarded in the source; a per-quota failure propagates. -/
theorem c9_counterexample :
    refresh_quota_caches 0 [⟨1, 0⟩, ⟨2, 0⟩] c9db c9bad = .error "boom" ∧
    refresh_quota_caches 0 [⟨1, 0⟩, ⟨2, 0⟩] c9db (fun _ => .ok ()) = .ok [1, 2, 3] := by
  refine ⟨by rfl, by rfl⟩

/-- Claim C9 (corrected): the sweep isolates exactly the event-lookup
failure: when the event record of an active row has vanished between
selection and processing, that row is skipped and the sweep of the
remaining rows proceeds unchanged.  (A failure raised while processing a
quota is not isolated, as the counterexample shows.) -/
theorem c9_event_vanish_isolation (now_t : Int) (a : ActiveRow) (rest : List ActiveRow)
    (events_db : Nat → Option SchedEvent) (availability : SchedQuota → Except String Unit)
    (h : events_db a.event = none) :
    refresh_quota_caches now_t (a :: rest) events_db availability =
      refresh_quota_caches now_t rest events_db availability := by
  unfold refresh_quota_caches
  rw [List.foldlM_cons]
  simp [h, Bind.bind, Except.bind]

theorem c9_witness :
    refresh_quota_caches 0 [⟨7, 0⟩, ⟨2, 0⟩] c9db (fun _ => .ok ()) =
      refresh_quota_caches 0 [⟨2, 0⟩] c9db (fun _ => .ok ()) :=
  c9_event_vanish_isolation 0 ⟨7, 0⟩ [⟨2, 0⟩] c9db (fun _ => .ok ()) (by rfl)

def c2q : Quota := ⟨1, 1, none, some 10, false⟩

def c2wl : CountLine := ⟨7, none, none, 1⟩

/-- Claim C2 (code_bug): in analysis mode the cart-holds pass accumulates
its counts under the counter named waitinglist instead of a distinct
cart-holds counter (source line 183): a run with one cart hold and no
waiting-list entry reports waitinglist = 1, and a run with one cart hold
and one waiting-list entry reports waitinglist = 2 — the breakdown never
separates the two sources. -/
theorem c2_cart_holds_mislabeled :
    analysisOf (calculate_availabilities [c2q] [⟨1, 7⟩] [] [] [] [] [c2wl] true false true)
      c2q "waitinglist" = 1 ∧
    analysisOf (calculate_availabilities [c2q] [⟨1, 7⟩] [] [] [] [c2wl] [c2wl] true false true)
      c2q "waitinglist" = 2 := by
  refine ⟨by rfl, by rfl⟩

def c8q : Quota := ⟨1, 1, none, some 10, false⟩

def c8v : VoucherLine := ⟨none, none, none, some 5, 1⟩

def c8uq : Quota := ⟨4, 1, none, none, false⟩

/-- Claim C8 (code_bug): the engine does raise — the variant-scoped branch
of the voucher pass accesses the key itemvariation_id, which the projected
voucher row does not contain, so a blocking voucher scoped to a variant
raises a KeyError; and in analysis mode an unlimited-size quota stores None
in the counter, so the first consumption reaching it raises a TypeError. -/
theorem c8_voucher_variant_branch_raises :
    calculate_availabilities [c8q] [] [⟨1, 5⟩] [] [c8v] [] [] true false false =
      .error "KeyError: itemvariation_id" ∧
    calculate_availabilities [c8uq] [⟨4, 7⟩] [] [⟨"p", 7, none, none, 1⟩] [] [] [] true false
      true = .error "TypeError: NoneType minus int" := by
  refine ⟨by rfl, by rfl⟩
